import Mathlib

/-!
Verification of the zone/region placement resolver of package `volume`
(file util-after.go): selector validation, admin zone overrides, the lazily
cached region-to-zones index, the ordered constraint resolution in
GetConfZones, and the deterministic hash-based zone picker
ChooseZoneForVolume.

Zone sets (Go sets.String) are modelled as Finset String; Go multiple
return values (T, error) are modelled as Except String T, or as
Option String paired with the updated receiver state for the mutating
methods of ZonesConf.  The ghost field zoneToRegionCalls counts the
invocations of the injected ZoneToRegion function.
-/

namespace KubeVolume

/-- Key metav1.LabelZoneFailureDomain. -/
def LabelZoneFailureDomain : String := "failure-domain.beta.kubernetes.io/zone"

/-- Key metav1.LabelZoneRegion. -/
def LabelZoneRegion : String := "failure-domain.beta.kubernetes.io/region"

/-- Operator metav1.LabelSelectorOpIn. -/
def LabelSelectorOpIn : String := "In"

/-- Operator metav1.LabelSelectorOpNotIn. -/
def LabelSelectorOpNotIn : String := "NotIn"

/-- One entry of selector.matchExpressions (metav1.LabelSelectorRequirement). -/
structure LabelSelectorRequirement where
  key : String
  operator : String
  values : List String
  deriving DecidableEq, Repr

/-- A label selector: matchLabels (a string-to-string map, modelled as an
association list) and matchExpressions. -/
structure LabelSelector where
  matchLabels : List (String × String)
  matchExpressions : List LabelSelectorRequirement
  deriving DecidableEq, Repr

/-- The selector-relevant part of a v1.PersistentVolumeClaim; a nil
Go selector pointer is modelled as none. -/
structure PersistentVolumeClaim where
  selector : Option LabelSelector
  deriving DecidableEq, Repr

/-- allowedKeys of validatePVCSelector. -/
def allowedKey (k : String) : Bool :=
  k == LabelZoneFailureDomain || k == LabelZoneRegion

/-- allowedOperators of validatePVCSelector. -/
def allowedOperator (op : String) : Bool :=
  op == LabelSelectorOpIn || op == LabelSelectorOpNotIn

/-- The per-expression check of the validatePVCSelector loop: an expression
fails if its key or operator is not allowed or it has no values. -/
def badExpression (e : LabelSelectorRequirement) : Bool :=
  !allowedKey e.key || !allowedOperator e.operator || e.values.length < 1

/-- The error message for the first failing matchExpressions entry,
following the check order of the Go loop: key, then operator, then values. -/
def expressionErrorMsg (e : LabelSelectorRequirement) : String :=
  if !allowedKey e.key then
    "key " ++ e.key ++ " is not permitted in selector.matchExpressions"
  else if !allowedOperator e.operator then
    "operator " ++ e.operator ++ " is not permitted in selector.matchExpressions"
  else
    "key " ++ e.key ++ ", operator " ++ e.operator ++
      " pair does not contain any value(s) in selector.matchExpressions"

/-- validatePVCSelector: ok true when the selector is absent or empty,
an error on a disallowed matchLabels key or a failing matchExpressions
entry, ok false otherwise. -/
def validatePVCSelector (pvc : PersistentVolumeClaim) : Except String Bool :=
  match pvc.selector with
  | none => Except.ok true
  | some sel =>
    if sel.matchExpressions.length < 1 && sel.matchLabels.length < 1 then
      Except.ok true
    else
      match sel.matchLabels.find? (fun kv => !allowedKey kv.1) with
      | some kv =>
        Except.error ("key " ++ kv.1 ++ " is not permitted in selector.matchLabels")
      | none =>
        match sel.matchExpressions.find? badExpression with
        | some e => Except.error (expressionErrorMsg e)
        | none => Except.ok false

/-- getPVCMatchLabel: the equality value for a key of the matchLabels part,
or an error when the selector or the key is absent. -/
def getPVCMatchLabel (pvc : PersistentVolumeClaim) (key : String) : Except String String :=
  match pvc.selector with
  | none => Except.error "missing selector.matchLabels"
  | some sel =>
    match sel.matchLabels.lookup key with
    | some value => Except.ok value
    | none => Except.error ("key " ++ key ++ " not found in selector.matchLabels")

/-- getPVCMatchExpression: the value sets of every matchExpressions entry
with the given key and operator and at least one value, in order, or an
error when there is none. -/
def getPVCMatchExpression (pvc : PersistentVolumeClaim) (key operator : String) :
    Except String (List (Finset String)) :=
  match pvc.selector with
  | none => Except.error "missing selector.matchExpressions"
  | some sel =>
    if sel.matchExpressions.length < 1 then
      Except.error "key(s), operator(s) and value(s) are missing in selector.matchExpressions"
    else
      let matching := sel.matchExpressions.filter
        (fun item => item.key == key && item.operator == operator && decide (0 < item.values.length))
      if matching.length == 0 then
        Except.error ("operator " ++ operator ++ " for key " ++ key ++
          " not found in selector.matchExpressions")
      else
        Except.ok (matching.map (fun item => item.values.toFinset))

/-- The character class trimmed by Go strings.TrimSpace (unicode.IsSpace). -/
def goIsSpace (c : Char) : Bool :=
  c == ' ' || c == '\t' || c == '\n' || c == '\r' || c.toNat == 11 || c.toNat == 12 ||
    c.toNat == 0x85 || c.toNat == 0xA0 || c.toNat == 0x1680 ||
    (0x2000 ≤ c.toNat && c.toNat ≤ 0x200A) || c.toNat == 0x2028 || c.toNat == 0x2029 ||
    c.toNat == 0x202F || c.toNat == 0x205F || c.toNat == 0x3000

/-- Go strings.TrimSpace. -/
def trimSpace (s : String) : String :=
  ⟨((s.data.dropWhile goIsSpace).reverse.dropWhile goIsSpace).reverse⟩

/-- The insertion loop of zonesToSet: trim each token, fail on an empty
trimmed token, insert the others. -/
def zonesToSetLoop (zonesString : String) : List String → Finset String → Except String (Finset String)
  | [], acc => Except.ok acc
  | zone :: rest, acc =>
    let trimmedZone := trimSpace zone
    if trimmedZone = "" then
      Except.error ("comma separated list of zones (" ++ zonesString ++
        ") must not contain an empty zone")
    else
      zonesToSetLoop zonesString rest (insert trimmedZone acc)

/-- The splitting loop of Go strings.Split(s, ","): cut at every comma,
so that n commas yield n+1 tokens and the empty string yields one empty
token. -/
def splitOnCommaAux : List Char → List Char → List String
  | [], acc => [⟨acc.reverse⟩]
  | c :: rest, acc =>
    if c = ',' then ⟨acc.reverse⟩ :: splitOnCommaAux rest []
    else splitOnCommaAux rest (c :: acc)

/-- Go strings.Split(s, ","). -/
def goSplitComma (s : String) : List String := splitOnCommaAux s.data []

/-- zonesToSet: split on commas, trim every token, reject empty tokens. -/
def zonesToSet (zonesString : String) : Except String (Finset String) :=
  zonesToSetLoop zonesString (goSplitComma zonesString) ∅

/-- Lexicographic comparison of character lists by code point; this is the
order in which Go sort.Strings sorts zone names (byte-wise comparison of
UTF-8 strings, which coincides with code-point order). -/
def charListLeb : List Char → List Char → Bool
  | [], _ => true
  | _ :: _, [] => false
  | a :: as, b :: bs =>
    if a.toNat < b.toNat then true
    else if b.toNat < a.toNat then false
    else charListLeb as bs

/-- The string order used for sorting zone sets. -/
def zoneLe (a b : String) : Prop := charListLeb a.data b.data = true

instance : DecidableRel zoneLe := fun a b =>
  inferInstanceAs (Decidable (charListLeb a.data b.data = true))

theorem char_toNat_injective {a b : Char} (h : a.toNat = b.toNat) : a = b :=
  Char.ext (UInt32.ext h)

theorem charListLeb_cons {a b : Char} {as bs : List Char} :
    charListLeb (a :: as) (b :: bs) = true ↔
      a.toNat < b.toNat ∨ (a.toNat = b.toNat ∧ charListLeb as bs = true) := by
  simp only [charListLeb]
  split
  · next h => simp [h]
  · next h =>
    split
    · next h2 =>
      simp only [Bool.false_eq_true, false_iff]
      rintro (h3 | ⟨h3, _⟩) <;> omega
    · next h2 =>
      have he : a.toNat = b.toNat := by omega
      simp [he]

theorem charListLeb_total : ∀ l₁ l₂, charListLeb l₁ l₂ = true ∨ charListLeb l₂ l₁ = true := by
  intro l₁
  induction l₁ with
  | nil => intro l₂; left; rfl
  | cons a as ih =>
    intro l₂
    cases l₂ with
    | nil => right; rfl
    | cons b bs =>
      rcases Nat.lt_trichotomy a.toNat b.toNat with h | h | h
      · left; rw [charListLeb_cons]; exact Or.inl h
      · rcases ih bs with h' | h'
        · left; rw [charListLeb_cons]; exact Or.inr ⟨h, h'⟩
        · right; rw [charListLeb_cons]; exact Or.inr ⟨h.symm, h'⟩
      · right; rw [charListLeb_cons]; exact Or.inl h

theorem charListLeb_trans :
    ∀ l₁ l₂ l₃, charListLeb l₁ l₂ = true → charListLeb l₂ l₃ = true →
      charListLeb l₁ l₃ = true := by
  intro l₁
  induction l₁ with
  | nil => intro l₂ l₃ _ _; rfl
  | cons a as ih =>
    intro l₂ l₃ h₁₂ h₂₃
    cases l₂ with
    | nil => exact absurd h₁₂ (by simp [charListLeb])
    | cons b bs =>
      cases l₃ with
      | nil => exact absurd h₂₃ (by simp [charListLeb])
      | cons c cs =>
        rw [charListLeb_cons] at h₁₂ h₂₃ ⊢
        rcases h₁₂ with h | ⟨he, hl⟩
        · rcases h₂₃ with h' | ⟨he', _⟩
          · exact Or.inl (by omega)
          · exact Or.inl (by omega)
        · rcases h₂₃ with h' | ⟨he', hl'⟩
          · exact Or.inl (by omega)
          · exact Or.inr ⟨by omega, ih bs cs hl hl'⟩

theorem charListLeb_antisymm :
    ∀ l₁ l₂, charListLeb l₁ l₂ = true → charListLeb l₂ l₁ = true → l₁ = l₂ := by
  intro l₁
  induction l₁ with
  | nil =>
    intro l₂ _ h₂₁
    cases l₂ with
    | nil => rfl
    | cons b bs => exact absurd h₂₁ (by simp [charListLeb])
  | cons a as ih =>
    intro l₂ h₁₂ h₂₁
    cases l₂ with
    | nil => exact absurd h₁₂ (by simp [charListLeb])
    | cons b bs =>
      rw [charListLeb_cons] at h₁₂ h₂₁
      rcases h₁₂ with h | ⟨he, hl⟩
      · rcases h₂₁ with h' | ⟨he', _⟩ <;> omega
      · rcases h₂₁ with h' | ⟨he', hl'⟩
        · omega
        · have hab : a = b := char_toNat_injective he
          subst hab
          rw [ih bs hl hl']

instance : IsTotal String zoneLe := ⟨fun a b => charListLeb_total a.data b.data⟩

instance : IsTrans String zoneLe := ⟨fun a b c => charListLeb_trans a.data b.data c.data⟩

instance : IsAntisymm String zoneLe :=
  ⟨fun a b h₁ h₂ => by
    cases a; cases b
    exact congrArg String.mk (charListLeb_antisymm _ _ h₁ h₂)⟩

/-- The sorted list of the zones of a set (Go sets.String List, which
returns the keys in sorted order).  Insertion sort is used so that the
function reduces inside the kernel. -/
def sortedZoneList (s : Finset String) : List String :=
  Quot.liftOn s.val (fun l => l.insertionSort zoneLe) (by
    intro l₁ l₂ h
    exact List.eq_of_perm_of_sorted
      ((l₁.perm_insertionSort _).trans (h.trans (l₂.perm_insertionSort _).symm))
      (l₁.sorted_insertionSort _) (l₂.sorted_insertionSort _))

/-- The state of a ZonesConf resolver.  The two injected functions are the
field GetAllZones (each call returns this fixed outcome) and the field
ZoneToRegion.  regionToZonesMap is the Go map, with absent regions reading
as the empty set (a nil Go set).  zoneToRegionCalls is a ghost counter of
ZoneToRegion invocations. -/
structure ZonesConf where
  PVC : PersistentVolumeClaim
  GetAllZones : Except String (Finset String)
  ZoneToRegion : String → Except String String
  isSCZoneConfigured : Bool := false
  isSCZonesConfigured : Bool := false
  gotAllAvailableZones : Bool := false
  allAvailableZones : Finset String := ∅
  resultingZones : Finset String := ∅
  isRegionToZonesMapValid : Bool := false
  regionToZonesMap : String → Finset String := fun _ => ∅
  zoneToRegionCalls : Nat := 0

/-- A freshly constructed ZonesConf: only the PVC and the two injected
functions are set, everything else is the Go zero value. -/
def initZonesConf (pvc : PersistentVolumeClaim) (getAll : Except String (Finset String))
    (zoneToRegion : String → Except String String) : ZonesConf :=
  { PVC := pvc, GetAllZones := getAll, ZoneToRegion := zoneToRegion }

/-- Error message of the zone/zones StorageClass parameter conflict. -/
def conflictMsg : String :=
  "both zone and zones StorageClass parameters must not be used at the same time"

/-- SetZone: fails when the zones parameter was already configured,
otherwise stores the singleton zone set. -/
def SetZone (z : ZonesConf) (zone : String) : Option String × ZonesConf :=
  if z.isSCZonesConfigured then
    (some conflictMsg, z)
  else
    (none, { z with resultingZones := {zone}, isSCZoneConfigured := true })

/-- SetZones: fails when the zone parameter was already configured, parses
the comma separated list otherwise.  As in the source, a parse failure
still overwrites resultingZones (with the empty set the parser returned)
but leaves isSCZonesConfigured unset. -/
def SetZones (z : ZonesConf) (zones : String) : Option String × ZonesConf :=
  if z.isSCZoneConfigured then
    (some conflictMsg, z)
  else
    match zonesToSet zones with
    | Except.error e =>
      (some ("corresponding storage class error: " ++ e), { z with resultingZones := ∅ })
    | Except.ok s =>
      (none, { z with resultingZones := s, isSCZonesConfigured := true })

/-- getAllAvailableZones: caches the result of the GetAllZones call. -/
def getAllAvailableZones (z : ZonesConf) : Except String (Finset String) × ZonesConf :=
  if z.gotAllAvailableZones then
    (Except.ok z.allAvailableZones, z)
  else
    match z.GetAllZones with
    | Except.error e => (Except.error e, { z with allAvailableZones := ∅ })
    | Except.ok s =>
      (Except.ok s, { z with allAvailableZones := s, gotAllAvailableZones := true })

/-- The zone loop of calculateRegionToZonesMap: convert each zone to its
region and add the zone to that region entry of the map, stopping with an
error on the first failing lookup.  Also returns the number of performed
ZoneToRegion invocations. -/
def regionMapLoop (zoneToRegion : String → Except String String) :
    List String → (String → Finset String) → Option String × (String → Finset String) × Nat
  | [], m => (none, m, 0)
  | zone :: rest, m =>
    match zoneToRegion zone with
    | Except.error e =>
      (some ("failed to convert zone (" ++ zone ++ ") to a region: " ++ e), m, 1)
    | Except.ok region =>
      let r := regionMapLoop zoneToRegion rest
        (fun x => if x = region then insert zone (m x) else m x)
      (r.1, r.2.1, r.2.2 + 1)

/-- calculateRegionToZonesMap: no-op when the map is already valid,
otherwise reset the map, fetch all zones when not cached, and run the
zone loop; the validity flag is set only when the whole loop succeeded. -/
def calculateRegionToZonesMap (z0 : ZonesConf) : Option String × ZonesConf :=
  if z0.isRegionToZonesMapValid then
    (none, z0)
  else
    match (if z0.gotAllAvailableZones then
             (Except.ok z0.allAvailableZones,
               { z0 with regionToZonesMap := fun _ => (∅ : Finset String) })
           else getAllAvailableZones
             { z0 with regionToZonesMap := fun _ => (∅ : Finset String) }) with
    | (Except.error e, z1) => (some e, z1)
    | (Except.ok _, z1) =>
      match regionMapLoop z1.ZoneToRegion
          (sortedZoneList z1.allAvailableZones) z1.regionToZonesMap with
      | (some e, m, n) =>
        (some e, { z1 with regionToZonesMap := m,
                           zoneToRegionCalls := z1.zoneToRegionCalls + n })
      | (none, m, n) =>
        (none, { z1 with regionToZonesMap := m,
                         zoneToRegionCalls := z1.zoneToRegionCalls + n,
                         isRegionToZonesMapValid := true })

/-- The `if not valid then calculate` prologue shared by every use of the
region map in the source. -/
def ensureRegionMap (z : ZonesConf) : Option String × ZonesConf :=
  if !z.isRegionToZonesMapValid then calculateRegionToZonesMap z else (none, z)

/-- regionToZones: build the map when needed, then read the entry of the
region (the empty set when the region is absent). -/
def regionToZones (z : ZonesConf) (region : String) : Except String (Finset String) × ZonesConf :=
  match ensureRegionMap z with
  | (some e, z1) => (Except.error e, z1)
  | (none, z1) => (Except.ok (z1.regionToZonesMap region), z1)

/-- The inner loop of the In/NotIn region passes: union the zones of every
region of one expression value set into one group. -/
def sumZonesForRegions (m : String → Finset String) (regions : Finset String) : Finset String :=
  (sortedZoneList regions).foldl (fun acc r => acc ∪ m r) ∅

/-- The equality-zone pass of GetConfZones. -/
def passEqZone (z : ZonesConf) : ZonesConf :=
  match getPVCMatchLabel z.PVC LabelZoneFailureDomain with
  | Except.ok v => { z with resultingZones := z.resultingZones ∩ ({v} : Finset String) }
  | Except.error _ => z

/-- The equality-region pass of GetConfZones. -/
def passEqRegion (z : ZonesConf) : Option String × ZonesConf :=
  match getPVCMatchLabel z.PVC LabelZoneRegion with
  | Except.ok region =>
    match regionToZones z region with
    | (Except.error e, z1) => (some e, z1)
    | (Except.ok zones, z1) => (none, { z1 with resultingZones := z1.resultingZones ∩ zones })
  | Except.error _ => (none, z)

/-- The In-zone pass of GetConfZones: one intersection per expression. -/
def passInZone (z : ZonesConf) : ZonesConf :=
  match getPVCMatchExpression z.PVC LabelZoneFailureDomain LabelSelectorOpIn with
  | Except.ok zoneSets =>
    { z with resultingZones := zoneSets.foldl (fun acc s => acc ∩ s) z.resultingZones }
  | Except.error _ => z

/-- The In-region pass of GetConfZones: build the map when needed, then one
intersection with the summed zone group per expression. -/
def passInRegion (z : ZonesConf) : Option String × ZonesConf :=
  match getPVCMatchExpression z.PVC LabelZoneRegion LabelSelectorOpIn with
  | Except.ok regionSets =>
    match ensureRegionMap z with
    | (some e, z1) => (some e, z1)
    | (none, z1) =>
      let zones :=
        regionSets.foldl (fun acc rs => acc ∩ sumZonesForRegions z1.regionToZonesMap rs)
          z1.resultingZones
      (none, { z1 with resultingZones := zones })
  | Except.error _ => (none, z)

/-- The NotIn-zone pass of GetConfZones: one difference per expression. -/
def passNotInZone (z : ZonesConf) : ZonesConf :=
  match getPVCMatchExpression z.PVC LabelZoneFailureDomain LabelSelectorOpNotIn with
  | Except.ok zoneSets =>
    { z with resultingZones := zoneSets.foldl (fun acc s => acc \ s) z.resultingZones }
  | Except.error _ => z

/-- The NotIn-region pass of GetConfZones. -/
def passNotInRegion (z : ZonesConf) : Option String × ZonesConf :=
  match getPVCMatchExpression z.PVC LabelZoneRegion LabelSelectorOpNotIn with
  | Except.ok regionSets =>
    match ensureRegionMap z with
    | (some e, z1) => (some e, z1)
    | (none, z1) =>
      let zones :=
        regionSets.foldl (fun acc rs => acc \ sumZonesForRegions z1.regionToZonesMap rs)
          z1.resultingZones
      (none, { z1 with resultingZones := zones })
  | Except.error _ => (none, z)

/-- The terminal error of GetConfZones on an empty resulting set. -/
def terminalEmptyMsg : String :=
  "Could not find availability zone: combination of StorageClass parameters and selector of this claim cannot be satisfied by this cluster"

/-- The last two constraint passes of GetConfZones (NotIn zone, NotIn
region) followed by the final emptiness check of the source. -/
def confZonesPasses3 (z5 : ZonesConf) : Except String (Finset String) × ZonesConf :=
  match passNotInRegion (passNotInZone z5) with
  | (some e, z7) => (Except.error e, z7)
  | (none, z7) =>
    if z7.resultingZones.card < 1 then
      (Except.error terminalEmptyMsg, z7)
    else
      (Except.ok z7.resultingZones, z7)

/-- The In-zone and In-region passes of GetConfZones followed by the rest
of the function. -/
def confZonesPasses2 (z3 : ZonesConf) : Except String (Finset String) × ZonesConf :=
  match passInRegion (passInZone z3) with
  | (some e, z5) => (Except.error e, z5)
  | (none, z5) => confZonesPasses3 z5

/-- The six constraint passes of GetConfZones in source order (equality
zone, equality region, In zone, In region, NotIn zone, NotIn region) and
the final emptiness check. -/
def confZonesPasses (z1 : ZonesConf) : Except String (Finset String) × ZonesConf :=
  match passEqRegion (passEqZone z1) with
  | (some e, z3) => (Except.error e, z3)
  | (none, z3) => confZonesPasses2 z3

/-- GetConfZones: start from the admin override or the cached all-zones
set, return early on an empty selector, then run the six constraint passes
in source order and fail when the final set is empty. -/
def GetConfZones (z0 : ZonesConf) : Except String (Finset String) × ZonesConf :=
  match (if !z0.isSCZoneConfigured && !z0.isSCZonesConfigured then
           match getAllAvailableZones z0 with
           | (Except.error e, z1) => (some e, z1)
           | (Except.ok s, z1) => (none, { z1 with resultingZones := s })
         else (none, z0)) with
  | (some e, z1) => (Except.error e, z1)
  | (none, z1) =>
    match validatePVCSelector z1.PVC with
    | Except.error e => (Except.error e, z1)
    | Except.ok true => (Except.ok z1.resultingZones, z1)
    | Except.ok false => confZonesPasses z1

/-! ### ChooseZoneForVolume (the deterministic zone picker) -/

/-- UTF-8 encoding of one character, as byte values (the Go conversion
from string to a byte slice). -/
def charBytes (c : Char) : List Nat :=
  let n := c.toNat
  if n < 0x80 then [n]
  else if n < 0x800 then
    [0xC0 ||| (n >>> 6), 0x80 ||| (n &&& 0x3F)]
  else if n < 0x10000 then
    [0xE0 ||| (n >>> 12), 0x80 ||| ((n >>> 6) &&& 0x3F), 0x80 ||| (n &&& 0x3F)]
  else
    [0xF0 ||| (n >>> 18), 0x80 ||| ((n >>> 12) &&& 0x3F),
      0x80 ||| ((n >>> 6) &&& 0x3F), 0x80 ||| (n &&& 0x3F)]

/-- The UTF-8 bytes of a string. -/
def stringBytes (s : String) : List Nat :=
  s.data.flatMap charBytes

/-- The 32-bit FNV-1 hash (hash/fnv New32): for each byte multiply by the
prime modulo 2^32, then xor the byte. -/
def fnv32 (s : String) : Nat :=
  (stringBytes s).foldl (fun h b => ((h * 16777619) % 4294967296) ^^^ b) 2166136261

/-- Go strconv.ParseUint(s, 10, 32): decimal digits only, nonempty, and
the value must fit in 32 bits. -/
def parseUint32 (s : String) : Option Nat :=
  if s.data ≠ [] ∧ s.data.all Char.isDigit then
    let v := s.data.foldl (fun a c => a * 10 + (c.toNat - 48)) 0
    if v < 4294967296 then some v else none
  else none

/-- Split a character list at its last dash: some (before, after) when a
dash exists (Go strings.LastIndexByte), none otherwise. -/
def splitLastDash : List Char → Option (List Char × List Char)
  | [] => none
  | c :: rest =>
    match splitLastDash rest with
    | some (before, after) => some (c :: before, after)
    | none => if c = '-' then some ([], rest) else none

/-- The StatefulSet heuristic of ChooseZoneForVolume: when the name ends in
a dash followed by an unsigned 32-bit integer, that integer is the index
and only the final dash-delimited segment of the remaining prefix is
hashed; otherwise the whole name is hashed with index 0. -/
def chooseHashString (pvcName : String) : String × Nat :=
  match splitLastDash pvcName.data with
  | none => (pvcName, 0)
  | some (before, after) =>
    match parseUint32 ⟨after⟩ with
    | none => (pvcName, 0)
    | some statefulsetID =>
      match splitLastDash before with
      | some (_, seg) => (⟨seg⟩, statefulsetID)
      | none => (⟨before⟩, statefulsetID)

/-- The index into the sorted zone list chosen by ChooseZoneForVolume.
The addition hash + index is 32-bit arithmetic in the source.  The hash of
an empty name is a random draw, modelled by the explicit randHash
argument. -/
def chooseZoneIndex (randHash : Nat) (zones : Finset String) (pvcName : String) : Nat :=
  let hi : Nat × Nat :=
    if pvcName = "" then (randHash % 4294967296, 0)
    else
      let p := chooseHashString pvcName
      (fnv32 p.1, p.2)
  ((hi.1 + hi.2) % 4294967296) % (sortedZoneList zones).length

/-- ChooseZoneForVolume: pick the zone at the chosen index of the sorted
zone list. -/
def ChooseZoneForVolume (randHash : Nat) (zones : Finset String) (pvcName : String) : String :=
  (sortedZoneList zones).getD (chooseZoneIndex randHash zones pvcName) ""

/-! ### The specification-side resolution pipeline (for the refinement
claim about the pass order of GetConfZones) -/

/-- Modelled from the spec (4.3 zonesForRegion): the full region-to-zones
index, built by iterating every available zone through the injected
zone-to-region lookup; a lookup failure surfaces the error. -/
def regionIndexSpec (getAll : Except String (Finset String))
    (zoneToRegion : String → Except String String) :
    Except String (String → Finset String) :=
  match getAll with
  | Except.error e => Except.error e
  | Except.ok allZones =>
    match regionMapLoop zoneToRegion (sortedZoneList allZones) (fun _ => ∅) with
    | (some e, _, _) => Except.error e
    | (none, m, _) => Except.ok m

/-- Modelled from the spec (4.4 step 3): intersect with the singleton of
the equality zone match when present. -/
def specStep3 (pvc : PersistentVolumeClaim) (ws : Finset String) : Finset String :=
  match getPVCMatchLabel pvc LabelZoneFailureDomain with
  | Except.ok v => ws ∩ ({v} : Finset String)
  | Except.error _ => ws

/-- Modelled from the spec (4.4 step 4): intersect with the zones of the
equality region match when present. -/
def specStep4 (getAll : Except String (Finset String))
    (zoneToRegion : String → Except String String)
    (pvc : PersistentVolumeClaim) (ws : Finset String) : Except String (Finset String) :=
  match getPVCMatchLabel pvc LabelZoneRegion with
  | Except.ok region =>
    match regionIndexSpec getAll zoneToRegion with
    | Except.error e => Except.error e
    | Except.ok m => Except.ok (ws ∩ m region)
  | Except.error _ => Except.ok ws

/-- Modelled from the spec (4.4 step 5): one intersection per In-zone
expression, sequentially. -/
def specStep5 (pvc : PersistentVolumeClaim) (ws : Finset String) : Finset String :=
  match getPVCMatchExpression pvc LabelZoneFailureDomain LabelSelectorOpIn with
  | Except.ok zoneSets => zoneSets.foldl (fun acc s => acc ∩ s) ws
  | Except.error _ => ws

/-- Modelled from the spec (4.4 step 6): per In-region expression, union
the zones of its regions into one group and intersect. -/
def specStep6 (getAll : Except String (Finset String))
    (zoneToRegion : String → Except String String)
    (pvc : PersistentVolumeClaim) (ws : Finset String) : Except String (Finset String) :=
  match getPVCMatchExpression pvc LabelZoneRegion LabelSelectorOpIn with
  | Except.ok regionSets =>
    match regionIndexSpec getAll zoneToRegion with
    | Except.error e => Except.error e
    | Except.ok m =>
      Except.ok (regionSets.foldl (fun acc rs => acc ∩ sumZonesForRegions m rs) ws)
  | Except.error _ => Except.ok ws

/-- Modelled from the spec (4.4 step 7): one difference per NotIn-zone
expression. -/
def specStep7 (pvc : PersistentVolumeClaim) (ws : Finset String) : Finset String :=
  match getPVCMatchExpression pvc LabelZoneFailureDomain LabelSelectorOpNotIn with
  | Except.ok zoneSets => zoneSets.foldl (fun acc s => acc \ s) ws
  | Except.error _ => ws

/-- Modelled from the spec (4.4 step 8): per NotIn-region expression, union
the zones of its regions into one group and subtract. -/
def specStep8 (getAll : Except String (Finset String))
    (zoneToRegion : String → Except String String)
    (pvc : PersistentVolumeClaim) (ws : Finset String) : Except String (Finset String) :=
  match getPVCMatchExpression pvc LabelZoneRegion LabelSelectorOpNotIn with
  | Except.ok regionSets =>
    match regionIndexSpec getAll zoneToRegion with
    | Except.error e => Except.error e
    | Except.ok m =>
      Except.ok (regionSets.foldl (fun acc rs => acc \ sumZonesForRegions m rs) ws)
  | Except.error _ => Except.ok ws

/-- Modelled from the spec (4.4 resolve): the working set starts as the
admin override zones or the all-zones set, an empty validated selector
returns it unchanged, then the passes of steps 3 to 8 run in this exact
order and an empty final set is the terminal error. -/
def resolveSpec (getAll : Except String (Finset String))
    (zoneToRegion : String → Except String String)
    (pvc : PersistentVolumeClaim) (override : Option (Finset String)) :
    Except String (Finset String) :=
  match (match override with
         | some s => Except.ok s
         | none => getAll) with
  | Except.error e => Except.error e
  | Except.ok start =>
    match validatePVCSelector pvc with
    | Except.error e => Except.error e
    | Except.ok true => Except.ok start
    | Except.ok false =>
      match specStep4 getAll zoneToRegion pvc (specStep3 pvc start) with
      | Except.error e => Except.error e
      | Except.ok ws4 =>
        match specStep6 getAll zoneToRegion pvc (specStep5 pvc ws4) with
        | Except.error e => Except.error e
        | Except.ok ws6 =>
          match specStep8 getAll zoneToRegion pvc (specStep7 pvc ws6) with
          | Except.error e => Except.error e
          | Except.ok ws8 =>
            if ws8.card < 1 then Except.error terminalEmptyMsg
            else Except.ok ws8

/-! ### Infrastructure for the claim statements -/

instance instDecEqExcept {ε α : Type _} [DecidableEq ε] [DecidableEq α] :
    DecidableEq (Except ε α) := fun a b => by
  cases a <;> cases b
  case error.error e₁ e₂ => exact decidable_of_iff (e₁ = e₂) (by simp)
  case error.ok _ _ => exact isFalse (by simp)
  case ok.error _ _ => exact isFalse (by simp)
  case ok.ok a₁ a₂ => exact decidable_of_iff (a₁ = a₂) (by simp)

/-- Whether an Except value is the error case. -/
def exceptIsError {ε α : Type _} : Except ε α → Bool
  | Except.error _ => true
  | Except.ok _ => false

/-- Whether the injected lookup maps a zone into the given region. -/
def zoneInRegion (zoneToRegion : String → Except String String) (region zone : String) : Bool :=
  match zoneToRegion zone with
  | Except.ok r => r == region
  | Except.error _ => false

/-- The selector is absent, or present with zero equality entries and zero
expressions. -/
def selectorEmpty (pvc : PersistentVolumeClaim) : Prop :=
  match pvc.selector with
  | none => True
  | some sel => sel.matchLabels = [] ∧ sel.matchExpressions = []

/-- Some equality-match key or expression-match key is outside the two
permitted keys, or some expression operator is outside In/NotIn, or some
expression has zero values. -/
def selectorHasBadEntry (pvc : PersistentVolumeClaim) : Prop :=
  match pvc.selector with
  | none => False
  | some sel =>
    (∃ kv ∈ sel.matchLabels, allowedKey kv.1 = false) ∨
      (∃ e ∈ sel.matchExpressions,
        allowedKey e.key = false ∨ allowedOperator e.operator = false ∨ e.values = [])

/-- A sample resolver configuration used by the witnesses. -/
def sampleConf : ZonesConf :=
  initZonesConf ⟨none⟩ (Except.ok ∅) (fun _ => Except.error "e")

/-! ### Claims -/

/-- C2: the claim says GetConfZones never returns an empty zone set with a
nil error, including when no admin override is configured, the selector is
empty and the injected list-all-zones function returns an empty set.  The
code contradicts this (and its own doc comment): on that very input it
returns the empty set with no error, because the empty-set check is only
reached when the selector is non-empty.  This theorem evaluates the code
at the failing input. -/
theorem getConfZones_empty_set_no_error :
    (GetConfZones (initZonesConf ⟨none⟩ (Except.ok ∅) (fun _ => Except.error "no lookup"))).1 =
      Except.ok (∅ : Finset String) := rfl

/-- C3 (amended): ChooseZoneForVolume is a deterministic pure function of
the eligible zone set and the request name for every non-empty request
name: the result does not depend on the random draw (modelled by the
randHash argument) nor on the iteration order in which the zone set was
assembled, since the set is sorted internally.  For the empty name the
pick is random by design. -/
theorem chooseZone_deterministic (r₁ r₂ : Nat) (l₁ l₂ : List String) (name : String)
    (hperm : l₁.Perm l₂) (hname : name ≠ "") :
    ChooseZoneForVolume r₁ l₁.toFinset name = ChooseZoneForVolume r₂ l₂.toFinset name := by
  rw [List.toFinset_eq_of_perm l₁ l₂ hperm]
  unfold ChooseZoneForVolume chooseZoneIndex
  simp [hname]

/-- C3 witness: the determinism theorem applied at a concrete permuted
pair of lists, a concrete name and two different random draws. -/
theorem chooseZone_deterministic_witness :
    (["b", "a"] : List String).Perm ["a", "b"] ∧ ("claim-set-0" : String) ≠ "" ∧
      ChooseZoneForVolume 0 (["b", "a"] : List String).toFinset "claim-set-0" =
        ChooseZoneForVolume 7 (["a", "b"] : List String).toFinset "claim-set-0" :=
  ⟨by decide, by decide,
    chooseZone_deterministic 0 7 ["b", "a"] ["a", "b"] "claim-set-0" (by decide) (by decide)⟩

/-- C3 counterexample: as stated, the claim quantifies over every request
name, but for the empty request name the source draws a random hash, so
two invocations (with different random draws) of ChooseZoneForVolume on
the same set and the same (empty) name can return different zones. -/
theorem chooseZone_random_counterexample :
    ¬ (ChooseZoneForVolume 0 {"a", "b"} "" = ChooseZoneForVolume 1 {"a", "b"} "") := by
  decide

/-- C4: on the eligible set of z1, z2, z3 the names claim-set-0 and
claim-set-1 pick different zones whose sorted-list indices differ by
exactly 1 modulo 3, while otherclaim-set-0 picks the same zone as
claim-set-0 because only the final dash-delimited segment of the prefix
(here: set) is hashed. -/
theorem chooseZone_ordinal_spreading :
    ChooseZoneForVolume 0 {"z1", "z2", "z3"} "claim-set-0" ≠
        ChooseZoneForVolume 0 {"z1", "z2", "z3"} "claim-set-1" ∧
      chooseZoneIndex 0 {"z1", "z2", "z3"} "claim-set-1" =
        (chooseZoneIndex 0 {"z1", "z2", "z3"} "claim-set-0" + 1) % 3 ∧
      ChooseZoneForVolume 0 {"z1", "z2", "z3"} "otherclaim-set-0" =
        ChooseZoneForVolume 0 {"z1", "z2", "z3"} "claim-set-0" := by
  refine ⟨by decide, by decide, by decide⟩

/-- Helper for C10: the insertion loop succeeds when every token trims to
a non-empty string, and then collects the trimmed tokens. -/
theorem zonesToSetLoop_ok (orig : String) :
    ∀ (l : List String) (acc : Finset String), (∀ t ∈ l, trimSpace t ≠ "") →
      zonesToSetLoop orig l acc = Except.ok (acc ∪ (l.map trimSpace).toFinset) := by
  intro l
  induction l with
  | nil => intro acc _; simp [zonesToSetLoop]
  | cons t rest ih =>
    intro acc h
    have ht : trimSpace t ≠ "" := h t (List.mem_cons_self t rest)
    simp only [zonesToSetLoop, if_neg ht]
    rw [ih (insert (trimSpace t) acc) (fun x hx => h x (List.mem_cons_of_mem t hx))]
    simp [Finset.insert_union, Finset.union_insert]

/-- Helper for C10: the insertion loop fails when some token trims to the
empty string. -/
theorem zonesToSetLoop_error (orig : String) :
    ∀ (l : List String) (acc : Finset String) (t : String), t ∈ l → trimSpace t = "" →
      ∃ e, zonesToSetLoop orig l acc = Except.error e := by
  intro l
  induction l with
  | nil => intro acc t ht _; cases ht
  | cons a rest ih =>
    intro acc t ht htrim
    by_cases ha : trimSpace a = ""
    · exact ⟨"comma separated list of zones (" ++ orig ++ ") must not contain an empty zone",
        by simp [zonesToSetLoop, ha]⟩
    · rcases List.mem_cons.mp ht with rfl | hmem
      · exact absurd htrim ha
      · simpa [zonesToSetLoop, ha] using ih (insert (trimSpace a) acc) t hmem htrim

/-- C6: configuring both admin override forms fails in either order: after
a successful SetZone, SetZones fails with the conflict error and leaves
the state unchanged, and after a successful SetZones, SetZone fails with
the conflict error and leaves the state unchanged. -/
theorem setZone_setZones_conflict (z : ZonesConf) (zone zonesStr : String) :
    ((SetZone z zone).1 = none →
        (SetZones (SetZone z zone).2 zonesStr).1 = some conflictMsg ∧
          (SetZones (SetZone z zone).2 zonesStr).2 = (SetZone z zone).2) ∧
      ((SetZones z zonesStr).1 = none →
        (SetZone (SetZones z zonesStr).2 zone).1 = some conflictMsg ∧
          (SetZone (SetZones z zonesStr).2 zone).2 = (SetZones z zonesStr).2) := by
  constructor
  · intro h
    by_cases hc : z.isSCZonesConfigured
    · simp [SetZone, hc] at h
    · simp [SetZone, hc, SetZones]
  · intro h
    by_cases hc : z.isSCZoneConfigured
    · simp [SetZones, hc] at h
    · cases hzs : zonesToSet zonesStr with
      | error e => simp [SetZones, hc, hzs] at h
      | ok s => simp [SetZones, hc, hzs, SetZone]

/-- C6 witness: both directions of the conflict theorem at a concrete
fresh configuration. -/
theorem setZone_setZones_conflict_witness :
    (SetZone sampleConf "a").1 = none ∧
      (SetZones (SetZone sampleConf "a").2 "b,c").1 = some conflictMsg ∧
      (SetZones (SetZone sampleConf "a").2 "b,c").2 = (SetZone sampleConf "a").2 ∧
      (SetZones sampleConf "b,c").1 = none ∧
      (SetZone (SetZones sampleConf "b,c").2 "a").1 = some conflictMsg ∧
      (SetZone (SetZones sampleConf "b,c").2 "a").2 = (SetZones sampleConf "b,c").2 := by
  have h₁ : (SetZone sampleConf "a").1 = none := rfl
  have h₂ : (SetZones sampleConf "b,c").1 = none := rfl
  obtain ⟨a₂, a₃⟩ := (setZone_setZones_conflict sampleConf "a" "b,c").1 h₁
  obtain ⟨b₂, b₃⟩ := (setZone_setZones_conflict sampleConf "a" "b,c").2 h₂
  exact ⟨h₁, a₂, a₃, h₂, b₂, b₃⟩

/-- C9: repeating the same admin override form does not error: a second
SetZone after a successful SetZone succeeds and replaces the zone, and a
second SetZones after a successful SetZones succeeds (with a parsable
input) and replaces the zone list. -/
theorem setOverride_repeat (z : ZonesConf) (a b csv₁ csv₂ : String) (s₂ : Finset String) :
    ((SetZone z a).1 = none →
        (SetZone (SetZone z a).2 b).1 = none ∧
          ((SetZone (SetZone z a).2 b).2).resultingZones = {b} ∧
          ((SetZone (SetZone z a).2 b).2).isSCZoneConfigured = true) ∧
      ((SetZones z csv₁).1 = none → zonesToSet csv₂ = Except.ok s₂ →
        (SetZones (SetZones z csv₁).2 csv₂).1 = none ∧
          ((SetZones (SetZones z csv₁).2 csv₂).2).resultingZones = s₂ ∧
          ((SetZones (SetZones z csv₁).2 csv₂).2).isSCZonesConfigured = true) := by
  constructor
  · intro h
    by_cases hc : z.isSCZonesConfigured
    · simp [SetZone, hc] at h
    · simp [SetZone, hc]
  · intro h hp
    by_cases hc : z.isSCZoneConfigured
    · simp [SetZones, hc] at h
    · cases hzs : zonesToSet csv₁ with
      | error e => simp [SetZones, hc, hzs] at h
      | ok s₁ => simp [SetZones, hc, hzs, hp]

/-- C9 witness: the repetition theorem at concrete inputs. -/
theorem setOverride_repeat_witness :
    ((SetZone (SetZone sampleConf "a").2 "b").1 = none ∧
        ((SetZone (SetZone sampleConf "a").2 "b").2).resultingZones = {"b"} ∧
        ((SetZone (SetZone sampleConf "a").2 "b").2).isSCZoneConfigured = true) ∧
      ((SetZones (SetZones sampleConf "x").2 "y,z").1 = none ∧
        ((SetZones (SetZones sampleConf "x").2 "y,z").2).resultingZones = {"y", "z"} ∧
        ((SetZones (SetZones sampleConf "x").2 "y,z").2).isSCZonesConfigured = true) :=
  ⟨(setOverride_repeat sampleConf "a" "b" "x" "y,z" {"y", "z"}).1 rfl,
    (setOverride_repeat sampleConf "a" "b" "x" "y,z" {"y", "z"}).2 rfl (by decide)⟩

/-- C10: zonesToSet trims surrounding whitespace from every comma
separated token (so " a , b" parses to the set of a and b), and a token
that trims to the empty string makes zonesToSet fail, in which case
SetZones fails and leaves isSCZonesConfigured unchanged (so no zone list
becomes configured). -/
theorem zonesToSet_trims (z : ZonesConf) (s : String) :
    ((∀ tok ∈ goSplitComma s, trimSpace tok ≠ "") →
        zonesToSet s = Except.ok ((goSplitComma s).map trimSpace).toFinset) ∧
      ((∃ tok ∈ goSplitComma s, trimSpace tok = "") →
        (∃ e, zonesToSet s = Except.error e) ∧
          (SetZones z s).1.isSome = true ∧
          ((SetZones z s).2).isSCZonesConfigured = z.isSCZonesConfigured) ∧
      zonesToSet " a , b" = Except.ok ({"a", "b"} : Finset String) := by
  refine ⟨fun h => ?_, fun h => ?_, by decide⟩
  · rw [zonesToSet, zonesToSetLoop_ok s (goSplitComma s) ∅ h, Finset.empty_union]
  · obtain ⟨tok, hmem, htok⟩ := h
    obtain ⟨e, he⟩ := zonesToSetLoop_error s (goSplitComma s) ∅ tok hmem htok
    have hzs : zonesToSet s = Except.error e := he
    refine ⟨⟨e, hzs⟩, ?_, ?_⟩
    · by_cases hc : z.isSCZoneConfigured
      · simp [SetZones, hc]
      · simp [SetZones, hc, hzs]
    · by_cases hc : z.isSCZoneConfigured
      · simp [SetZones, hc]
      · simp [SetZones, hc, hzs]

/-- C10 witness: the trimming theorem at the concrete inputs " a , b"
(all tokens non-empty after trimming) and "a,,b" (an empty token). -/
theorem zonesToSet_trims_witness :
    zonesToSet " a , b" =
        Except.ok ((goSplitComma " a , b").map trimSpace).toFinset ∧
      ((∃ e, zonesToSet "a,,b" = Except.error e) ∧
        (SetZones sampleConf "a,,b").1.isSome = true ∧
        ((SetZones sampleConf "a,,b").2).isSCZonesConfigured =
          sampleConf.isSCZonesConfigured) :=
  ⟨(zonesToSet_trims sampleConf " a , b").1 (by decide),
    ((zonesToSet_trims sampleConf "a,,b").2.1 (by decide))⟩

/-- Helper for C5: the Bool expression check unfolded to a proposition. -/
theorem badExpression_iff (e : LabelSelectorRequirement) :
    badExpression e = true ↔
      (allowedKey e.key = false ∨ allowedOperator e.operator = false ∨ e.values = []) := by
  simp [badExpression, Bool.or_eq_true, Bool.not_eq_true', Nat.lt_one_iff,
    List.length_eq_zero, or_assoc]

/-- Helper for C5: validatePVCSelector returns ok true exactly on an
absent or empty selector. -/
theorem validate_eq_ok_true (pvc : PersistentVolumeClaim) :
    validatePVCSelector pvc = Except.ok true ↔ selectorEmpty pvc := by
  constructor
  · intro h
    cases hsel : pvc.selector with
    | none => simp [selectorEmpty, hsel]
    | some sel =>
      simp only [validatePVCSelector, hsel] at h
      simp only [selectorEmpty, hsel]
      split at h
      · next hc =>
        simp only [Bool.and_eq_true, decide_eq_true_eq, Nat.lt_one_iff,
          List.length_eq_zero] at hc
        exact ⟨hc.2, hc.1⟩
      · split at h
        · simp at h
        · split at h
          · simp at h
          · simp at h
  · intro h
    cases hsel : pvc.selector with
    | none => simp [validatePVCSelector, hsel]
    | some sel =>
      simp only [selectorEmpty, hsel] at h
      simp [validatePVCSelector, hsel, h.1, h.2]

/-- Helper for C5: validatePVCSelector returns ok false exactly on a
non-empty selector without any disallowed entry. -/
theorem validate_eq_ok_false (pvc : PersistentVolumeClaim) :
    validatePVCSelector pvc = Except.ok false ↔
      ¬ selectorEmpty pvc ∧ ¬ selectorHasBadEntry pvc := by
  constructor
  · intro h
    cases hsel : pvc.selector with
    | none => simp [validatePVCSelector, hsel] at h
    | some sel =>
      simp only [validatePVCSelector, hsel] at h
      simp only [selectorEmpty, selectorHasBadEntry, hsel]
      split at h
      · simp at h
      · next hc =>
        split at h
        · simp at h
        · next hfl =>
          split at h
          · simp at h
          · next hfe =>
            constructor
            · rintro ⟨hl, he⟩
              exact hc (by simp [hl, he])
            · rintro (⟨kv, hkv, hbadkv⟩ | ⟨ex, hex, hbadex⟩)
              · have hnone := List.find?_eq_none.mp hfl kv hkv
                simp [hbadkv] at hnone
              · have hnone := List.find?_eq_none.mp hfe ex hex
                exact hnone ((badExpression_iff ex).mpr hbadex)
  · rintro ⟨hne, hnb⟩
    cases hsel : pvc.selector with
    | none => exact absurd (by simp [selectorEmpty, hsel]) hne
    | some sel =>
      simp only [selectorEmpty, hsel] at hne
      simp only [selectorHasBadEntry, hsel, not_or] at hnb
      have hfl : sel.matchLabels.find? (fun kv => !allowedKey kv.1) = none := by
        rw [List.find?_eq_none]
        intro kv hkv hpred
        exact hnb.1 ⟨kv, hkv, by simpa using hpred⟩
      have hfe : sel.matchExpressions.find? badExpression = none := by
        rw [List.find?_eq_none]
        intro ex hex hpred
        exact hnb.2 ⟨ex, hex, (badExpression_iff ex).mp hpred⟩
      have hcond : ¬ ((sel.matchExpressions.length < 1 &&
          sel.matchLabels.length < 1) = true) := by
        simp only [Bool.and_eq_true, decide_eq_true_eq, Nat.lt_one_iff,
          List.length_eq_zero]
        rintro ⟨h1, h2⟩
        exact hne ⟨h2, h1⟩
      simp only [validatePVCSelector, hsel, hfl, hfe]
      rw [if_neg hcond]

/-- C5: validatePVCSelector returns (true, nil) exactly when the selector
is absent or has zero equality entries and zero expressions; it returns an
error exactly when the selector is non-empty and some equality-match or
expression-match key is outside the two permitted keys, some operator is
outside In/NotIn, or some expression has zero values; and it returns
(false, nil) exactly on every other non-empty selector. -/
theorem validatePVCSelector_characterization (pvc : PersistentVolumeClaim) :
    (validatePVCSelector pvc = Except.ok true ↔ selectorEmpty pvc) ∧
      ((∃ e, validatePVCSelector pvc = Except.error e) ↔
        ¬ selectorEmpty pvc ∧ selectorHasBadEntry pvc) ∧
      (validatePVCSelector pvc = Except.ok false ↔
        ¬ selectorEmpty pvc ∧ ¬ selectorHasBadEntry pvc) := by
  have hT := validate_eq_ok_true pvc
  have hF := validate_eq_ok_false pvc
  refine ⟨hT, ⟨?_, ?_⟩, hF⟩
  · rintro ⟨e, he⟩
    have hne : ¬ selectorEmpty pvc := by
      intro hemp
      rw [hT.mpr hemp] at he
      cases he
    refine ⟨hne, ?_⟩
    by_contra hnb
    rw [hF.mpr ⟨hne, hnb⟩] at he
    cases he
  · rintro ⟨hne, hb⟩
    cases hv : validatePVCSelector pvc with
    | error e => exact ⟨e, rfl⟩
    | ok b =>
      cases b with
      | true => exact absurd (hT.mp hv) hne
      | false => exact absurd hb (hF.mp hv).2

/-! ### The region index: loop lemmas, coherence, and the ensure lemma -/

/-- Membership in the sorted zone list is membership in the set. -/
theorem mem_sortedZoneList {a : String} {s : Finset String} :
    a ∈ sortedZoneList s ↔ a ∈ s := by
  rcases s with ⟨val, hnodup⟩
  induction val using Quotient.inductionOn with
  | h l =>
    have hperm : (l.insertionSort zoneLe).Perm l := l.perm_insertionSort zoneLe
    constructor
    · intro h
      exact Multiset.mem_coe.mpr (hperm.mem_iff.mp h)
    · intro h
      exact hperm.mem_iff.mpr (Multiset.mem_coe.mp h)

/-- Filtering the sorted zone list and collecting the result is filtering
the set. -/
theorem sortedZoneList_filter_toFinset (s : Finset String) (p : String → Bool) :
    ((sortedZoneList s).filter p).toFinset = s.filter (fun a => p a = true) := by
  ext a
  simp [List.mem_toFinset, List.mem_filter, Finset.mem_filter, mem_sortedZoneList]

/-- The region map loop succeeds exactly when no lookup fails. -/
theorem regionMapLoop_fst_none_iff (zR : String → Except String String) :
    ∀ (l : List String) (m : String → Finset String),
      (regionMapLoop zR l m).1 = none ↔ ∀ z ∈ l, exceptIsError (zR z) = false := by
  intro l
  induction l with
  | nil => intro m; simp [regionMapLoop]
  | cons zone rest ih =>
    intro m
    cases hz : zR zone with
    | error e => simp [regionMapLoop, hz, exceptIsError]
    | ok region =>
      simp only [regionMapLoop, hz]
      rw [ih]
      constructor
      · intro h z hzmem
        rcases List.mem_cons.mp hzmem with rfl | hm
        · simp [hz, exceptIsError]
        · exact h z hm
      · intro h z hm
        exact h z (List.mem_cons_of_mem _ hm)

/-- On success, the region map loop extends the accumulator map at every
region with exactly the zones of the input list that the injected lookup
maps to that region. -/
theorem regionMapLoop_map_eq (zR : String → Except String String) :
    ∀ (l : List String) (m : String → Finset String), (regionMapLoop zR l m).1 = none →
      ∀ r, (regionMapLoop zR l m).2.1 r =
        m r ∪ (l.filter (fun z => zoneInRegion zR r z)).toFinset := by
  intro l
  induction l with
  | nil => intro m _ r; simp [regionMapLoop]
  | cons zone rest ih =>
    intro m hnone r
    cases hz : zR zone with
    | error e => simp [regionMapLoop, hz] at hnone
    | ok region =>
      simp only [regionMapLoop, hz] at hnone ⊢
      rw [ih _ hnone r]
      ext x
      by_cases hr : r = region
      · subst hr
        simp [zoneInRegion, hz, List.mem_filter]
        try tauto
      · have hrr : region ≠ r := fun hh => hr hh.symm
        simp [zoneInRegion, hz, List.mem_filter, hr, hrr]
        try tauto

/-- The branches of getAllAvailableZones when nothing is cached yet. -/
theorem getAllAvailableZones_cases (z : ZonesConf) (h : z.gotAllAvailableZones = false) :
    (∀ e, z.GetAllZones = Except.error e →
      getAllAvailableZones z = (Except.error e, { z with allAvailableZones := ∅ })) ∧
    (∀ s, z.GetAllZones = Except.ok s →
      getAllAvailableZones z =
        (Except.ok s, { z with allAvailableZones := s, gotAllAvailableZones := true })) := by
  constructor <;> intro x hx <;>
    rw [getAllAvailableZones.eq_def, if_neg (by simp [h]), hx]

/-- Cache coherence of a resolver state: a cached all-zones set agrees with
the injected function, and a valid region map agrees with the index the
spec describes. -/
def Coherent (z : ZonesConf) : Prop :=
  (z.gotAllAvailableZones = true → z.GetAllZones = Except.ok z.allAvailableZones) ∧
    (z.isRegionToZonesMapValid = true →
      regionIndexSpec z.GetAllZones z.ZoneToRegion = Except.ok z.regionToZonesMap)

/-- The central lemma about the lazily built region index: on a coherent
state, ensureRegionMap fails exactly with the error of the specification
index, and on success it installs exactly the specification index, leaving
the resolver inputs and the working set untouched. -/
theorem ensureRegionMap_spec (z : ZonesConf) (hc : Coherent z) :
    (∀ e, regionIndexSpec z.GetAllZones z.ZoneToRegion = Except.error e →
      (ensureRegionMap z).1 = some e) ∧
    (∀ m, regionIndexSpec z.GetAllZones z.ZoneToRegion = Except.ok m →
      ∃ z₁, ensureRegionMap z = (none, z₁) ∧
        z₁.regionToZonesMap = m ∧
        z₁.isRegionToZonesMapValid = true ∧
        z₁.resultingZones = z.resultingZones ∧
        z₁.PVC = z.PVC ∧
        z₁.GetAllZones = z.GetAllZones ∧
        z₁.ZoneToRegion = z.ZoneToRegion ∧
        z₁.isSCZoneConfigured = z.isSCZoneConfigured ∧
        z₁.isSCZonesConfigured = z.isSCZonesConfigured ∧
        Coherent z₁) := by
  by_cases hv : z.isRegionToZonesMapValid
  · have hspec := hc.2 hv
    constructor
    · intro e he
      rw [hspec] at he
      cases he
    · intro m hm
      rw [hspec] at hm
      have hmm : z.regionToZonesMap = m := by injection hm
      subst hmm
      exact ⟨z, by simp [ensureRegionMap, hv], rfl, hv, rfl, rfl, rfl, rfl, rfl, rfl, hc⟩
  · have hens : ensureRegionMap z = calculateRegionToZonesMap z := by
      simp [ensureRegionMap, by simpa using hv]
    cases hg : z.gotAllAvailableZones with
    | true =>
      have hga : z.GetAllZones = Except.ok z.allAvailableZones := hc.1 hg
      rcases hl : regionMapLoop z.ZoneToRegion (sortedZoneList z.allAvailableZones)
          (fun _ => (∅ : Finset String)) with ⟨o, m', n⟩
      cases o with
      | some e' =>
        have hspec : regionIndexSpec z.GetAllZones z.ZoneToRegion = Except.error e' := by
          rw [hga]
          show (match regionMapLoop z.ZoneToRegion (sortedZoneList z.allAvailableZones)
                (fun _ => (∅ : Finset String)) with
              | (some e, _, _) => Except.error e
              | (none, m, _) => Except.ok m) = Except.error e'
          rw [hl]
        have hcalc : (calculateRegionToZonesMap z).1 = some e' := by
          rw [calculateRegionToZonesMap.eq_def, if_neg hv, if_pos hg]
          show (match regionMapLoop z.ZoneToRegion
                  (sortedZoneList z.allAvailableZones) (fun _ => (∅ : Finset String)) with
              | (some e, m, n) =>
                (some e, { z with regionToZonesMap := m,
                                  zoneToRegionCalls := z.zoneToRegionCalls + n })
              | (none, m, n) =>
                (none, { z with regionToZonesMap := m,
                                zoneToRegionCalls := z.zoneToRegionCalls + n,
                                isRegionToZonesMapValid := true })).1 = some e'
          rw [hl]
        refine ⟨fun e he => ?_, fun m hm => ?_⟩
        · rw [hspec] at he
          have hee : e' = e := by injection he
          subst hee
          rw [hens]
          exact hcalc
        · rw [hspec] at hm
          cases hm
      | none =>
        have hspec : regionIndexSpec z.GetAllZones z.ZoneToRegion = Except.ok m' := by
          rw [hga]
          show (match regionMapLoop z.ZoneToRegion (sortedZoneList z.allAvailableZones)
                (fun _ => (∅ : Finset String)) with
              | (some e, _, _) => Except.error e
              | (none, m, _) => Except.ok m) = Except.ok m'
          rw [hl]
        have hcalc : calculateRegionToZonesMap z =
            (none, { z with regionToZonesMap := m',
                            zoneToRegionCalls := z.zoneToRegionCalls + n,
                            isRegionToZonesMapValid := true }) := by
          rw [calculateRegionToZonesMap.eq_def, if_neg hv, if_pos hg]
          show (match regionMapLoop z.ZoneToRegion
                  (sortedZoneList z.allAvailableZones) (fun _ => (∅ : Finset String)) with
              | (some e, m, n) =>
                (some e, { z with regionToZonesMap := m,
                                  zoneToRegionCalls := z.zoneToRegionCalls + n })
              | (none, m, n) =>
                (none, { z with regionToZonesMap := m,
                                zoneToRegionCalls := z.zoneToRegionCalls + n,
                                isRegionToZonesMapValid := true })) = _
          rw [hl]
        refine ⟨fun e he => ?_, fun m hm => ?_⟩
        · rw [hspec] at he
          cases he
        · rw [hspec] at hm
          have hmm : m' = m := by injection hm
          subst hmm
          exact ⟨{ z with regionToZonesMap := m',
                          zoneToRegionCalls := z.zoneToRegionCalls + n,
                          isRegionToZonesMapValid := true },
            by rw [hens, hcalc], rfl, rfl, rfl, rfl, rfl, rfl, rfl, rfl,
            ⟨fun _ => hga, fun _ => hspec⟩⟩
    | false =>
      cases hga : z.GetAllZones with
      | error e' =>
        have hspec : regionIndexSpec (Except.error e' : Except String (Finset String))
            z.ZoneToRegion = Except.error e' := rfl
        have hcalc : (calculateRegionToZonesMap z).1 = some e' := by
          rw [calculateRegionToZonesMap.eq_def, if_neg hv, if_neg (by simp [hg])]
          rw [(getAllAvailableZones_cases _ (by simp [hg])).1 e' (by exact hga)]
        refine ⟨fun e he => ?_, fun m hm => ?_⟩
        · rw [hspec] at he
          have hee : e' = e := by injection he
          subst hee
          rw [hens]
          exact hcalc
        · rw [hspec] at hm
          cases hm
      | ok s =>
        rcases hl : regionMapLoop z.ZoneToRegion (sortedZoneList s)
            (fun _ => (∅ : Finset String)) with ⟨o, m', n⟩
        cases o with
        | some e' =>
          have hspec : regionIndexSpec (Except.ok s : Except String (Finset String))
              z.ZoneToRegion = Except.error e' := by
            show (match regionMapLoop z.ZoneToRegion (sortedZoneList s)
                  (fun _ => (∅ : Finset String)) with
                | (some e, _, _) => Except.error e
                | (none, m, _) => Except.ok m) = Except.error e'
            rw [hl]
          have hcalc : (calculateRegionToZonesMap z).1 = some e' := by
            rw [calculateRegionToZonesMap.eq_def, if_neg hv, if_neg (by simp [hg])]
            rw [(getAllAvailableZones_cases _ (by simp [hg])).2 s (by exact hga)]
            show (match regionMapLoop z.ZoneToRegion
                    (sortedZoneList s) (fun _ => (∅ : Finset String)) with
                | (some e, m, n) =>
                  (some e, { z with regionToZonesMap := m,
                                    allAvailableZones := s,
                                    gotAllAvailableZones := true,
                                    zoneToRegionCalls := z.zoneToRegionCalls + n })
                | (none, m, n) =>
                  (none, { z with regionToZonesMap := m,
                                  allAvailableZones := s,
                                  gotAllAvailableZones := true,
                                  zoneToRegionCalls := z.zoneToRegionCalls + n,
                                  isRegionToZonesMapValid := true })).1 = some e'
            rw [hl]
          refine ⟨fun e he => ?_, fun m hm => ?_⟩
          · rw [hspec] at he
            have hee : e' = e := by injection he
            subst hee
            rw [hens]
            exact hcalc
          · rw [hspec] at hm
            cases hm
        | none =>
          have hspec : regionIndexSpec (Except.ok s : Except String (Finset String))
              z.ZoneToRegion = Except.ok m' := by
            show (match regionMapLoop z.ZoneToRegion (sortedZoneList s)
                  (fun _ => (∅ : Finset String)) with
                | (some e, _, _) => Except.error e
                | (none, m, _) => Except.ok m) = Except.ok m'
            rw [hl]
          have hcalc : calculateRegionToZonesMap z =
              (none, { z with regionToZonesMap := m',
                              allAvailableZones := s,
                              gotAllAvailableZones := true,
                              zoneToRegionCalls := z.zoneToRegionCalls + n,
                              isRegionToZonesMapValid := true }) := by
            rw [calculateRegionToZonesMap.eq_def, if_neg hv, if_neg (by simp [hg])]
            rw [(getAllAvailableZones_cases _ (by simp [hg])).2 s (by exact hga)]
            show (match regionMapLoop z.ZoneToRegion
                    (sortedZoneList s) (fun _ => (∅ : Finset String)) with
                | (some e, m, n) =>
                  (some e, { z with regionToZonesMap := m,
                                    allAvailableZones := s,
                                    gotAllAvailableZones := true,
                                    zoneToRegionCalls := z.zoneToRegionCalls + n })
                | (none, m, n) =>
                  (none, { z with regionToZonesMap := m,
                                  allAvailableZones := s,
                                  gotAllAvailableZones := true,
                                  zoneToRegionCalls := z.zoneToRegionCalls + n,
                                  isRegionToZonesMapValid := true })) = _
            rw [hl]
          refine ⟨fun e he => ?_, fun m hm => ?_⟩
          · rw [hspec] at he
            cases he
          · rw [hspec] at hm
            have hmm : m' = m := by injection hm
            subst hmm
            exact ⟨{ z with regionToZonesMap := m',
                            allAvailableZones := s,
                            gotAllAvailableZones := true,
                            zoneToRegionCalls := z.zoneToRegionCalls + n,
                            isRegionToZonesMapValid := true },
              by rw [hens, hcalc], rfl, rfl, rfl, rfl, by exact hga, rfl, rfl, rfl,
              ⟨fun _ => (by exact hga),
                fun _ => (by
                  show regionIndexSpec z.GetAllZones z.ZoneToRegion = Except.ok m'
                  rw [hga]
                  exact hspec)⟩⟩

/-- Any successful ensureRegionMap leaves the validity flag set. -/
theorem ensureRegionMap_none_valid {z z₁ : ZonesConf}
    (h : ensureRegionMap z = (none, z₁)) : z₁.isRegionToZonesMapValid = true := by
  by_cases hv : z.isRegionToZonesMapValid
  · rw [ensureRegionMap, if_neg (by simp [hv])] at h
    injection h with h1 h2
    rw [← h2]
    exact hv
  · rw [ensureRegionMap, if_pos (by simpa using hv)] at h
    rw [calculateRegionToZonesMap.eq_def, if_neg hv] at h
    rcases hf : (if z.gotAllAvailableZones = true then
        (Except.ok z.allAvailableZones,
          { z with regionToZonesMap := fun _ => (∅ : Finset String) })
      else getAllAvailableZones
        { z with regionToZonesMap := fun _ => (∅ : Finset String) }) with ⟨fe, fz⟩
    rw [hf] at h
    cases fe with
    | error e => simp at h
    | ok s =>
      have h' : (match regionMapLoop fz.ZoneToRegion
            (sortedZoneList fz.allAvailableZones) fz.regionToZonesMap with
          | (some e, m, n) =>
            ((some e : Option String),
              { fz with regionToZonesMap := m,
                        zoneToRegionCalls := fz.zoneToRegionCalls + n })
          | (none, m, n) =>
            (none, { fz with regionToZonesMap := m,
                             zoneToRegionCalls := fz.zoneToRegionCalls + n,
                             isRegionToZonesMapValid := true })) = (none, z₁) := h
      rcases hl : regionMapLoop fz.ZoneToRegion
          (sortedZoneList fz.allAvailableZones) fz.regionToZonesMap with ⟨o, m', n⟩
      rw [hl] at h'
      cases o with
      | some e => simp at h'
      | none =>
        injection h' with h1 h2
        rw [← h2]

/-- C7: regionToZones builds the full region index on its first call by
iterating every available zone through the injected zone-to-region lookup:
if any lookup fails the error is surfaced and the index stays marked
not-yet-valid (so a later call rebuilds it), and on success the entry of a
region is exactly the set of available zones the lookup maps to it; in
particular a region with no zones yields the empty set with no error. -/
theorem regionToZones_builds_index (pvc : PersistentVolumeClaim)
    (zR : String → Except String String) (allZ : Finset String) (region : String) :
    ((∃ zone ∈ allZ, exceptIsError (zR zone) = true) →
        exceptIsError (regionToZones (initZonesConf pvc (Except.ok allZ) zR) region).1 = true ∧
        ((regionToZones (initZonesConf pvc (Except.ok allZ) zR) region).2).isRegionToZonesMapValid
          = false) ∧
      ((∀ zone ∈ allZ, exceptIsError (zR zone) = false) →
        (regionToZones (initZonesConf pvc (Except.ok allZ) zR) region).1 =
          Except.ok (allZ.filter (fun zone => zoneInRegion zR region zone = true)) ∧
        ((regionToZones (initZonesConf pvc (Except.ok allZ) zR) region).2).isRegionToZonesMapValid
          = true) := by
  have hens0 : ensureRegionMap (initZonesConf pvc (Except.ok allZ) zR) =
      (match regionMapLoop zR (sortedZoneList allZ) (fun _ => (∅ : Finset String)) with
       | (some e, m, n) =>
         ((some e : Option String),
           { initZonesConf pvc (Except.ok allZ) zR with
               regionToZonesMap := m, allAvailableZones := allZ,
               gotAllAvailableZones := true, zoneToRegionCalls := 0 + n })
       | (none, m, n) =>
         (none,
           { initZonesConf pvc (Except.ok allZ) zR with
               regionToZonesMap := m, allAvailableZones := allZ,
               gotAllAvailableZones := true, zoneToRegionCalls := 0 + n,
               isRegionToZonesMapValid := true })) := rfl
  rcases hl : regionMapLoop zR (sortedZoneList allZ) (fun _ => (∅ : Finset String))
    with ⟨o, m', n⟩
  rw [hl] at hens0
  cases o with
  | some e =>
    have hkey : regionToZones (initZonesConf pvc (Except.ok allZ) zR) region =
        (Except.error e,
          { initZonesConf pvc (Except.ok allZ) zR with
              regionToZonesMap := m', allAvailableZones := allZ,
              gotAllAvailableZones := true, zoneToRegionCalls := 0 + n }) := by
      rw [regionToZones.eq_def, hens0]
    constructor
    · intro _
      rw [hkey]
      exact ⟨rfl, rfl⟩
    · intro hall
      have : (regionMapLoop zR (sortedZoneList allZ) (fun _ => (∅ : Finset String))).1
          = none := by
        rw [regionMapLoop_fst_none_iff]
        intro zone hz
        exact hall zone (mem_sortedZoneList.mp hz)
      rw [hl] at this
      cases this
  | none =>
    have hkey : regionToZones (initZonesConf pvc (Except.ok allZ) zR) region =
        (Except.ok (m' region),
          { initZonesConf pvc (Except.ok allZ) zR with
              regionToZonesMap := m', allAvailableZones := allZ,
              gotAllAvailableZones := true, zoneToRegionCalls := 0 + n,
              isRegionToZonesMapValid := true }) := by
      rw [regionToZones.eq_def, hens0]
    constructor
    · intro hbad
      obtain ⟨zone, hzmem, hzerr⟩ := hbad
      have hnone : (regionMapLoop zR (sortedZoneList allZ) (fun _ => (∅ : Finset String))).1
          = none := by rw [hl]
      rw [regionMapLoop_fst_none_iff] at hnone
      have hzz := hnone zone (mem_sortedZoneList.mpr hzmem)
      rw [hzerr] at hzz
      cases hzz
    · intro _
      have hnone : (regionMapLoop zR (sortedZoneList allZ) (fun _ => (∅ : Finset String))).1
          = none := by rw [hl]
      constructor
      · rw [hkey]
        show Except.ok (m' region) = _
        rw [show m' region = ((regionMapLoop zR (sortedZoneList allZ)
            (fun _ => (∅ : Finset String))).2.1) region from by rw [hl]]
        rw [regionMapLoop_map_eq zR (sortedZoneList allZ)
          (fun _ => (∅ : Finset String)) hnone region]
        rw [Finset.empty_union, sortedZoneList_filter_toFinset]
      · rw [hkey]

/-- C7 witness: the index-building theorem applied at a failing lookup (a
zone whose region lookup errors) and at a total lookup. -/
theorem regionToZones_builds_index_witness :
    (exceptIsError (regionToZones (initZonesConf ⟨none⟩
        (Except.ok {"za", "zb"})
        (fun zone => if zone = "zb" then Except.error "boom" else Except.ok "r1"))
        "r1").1 = true ∧
      ((regionToZones (initZonesConf ⟨none⟩
        (Except.ok {"za", "zb"})
        (fun zone => if zone = "zb" then Except.error "boom" else Except.ok "r1"))
        "r1").2).isRegionToZonesMapValid = false) ∧
    ((regionToZones (initZonesConf ⟨none⟩ (Except.ok {"za"})
        (fun _ => Except.ok "r1")) "nozones").1 =
      Except.ok (({"za"} : Finset String).filter
        (fun zone => zoneInRegion (fun _ => Except.ok "r1") "nozones" zone = true)) ∧
      ((regionToZones (initZonesConf ⟨none⟩ (Except.ok {"za"})
        (fun _ => Except.ok "r1")) "nozones").2).isRegionToZonesMapValid = true) :=
  ⟨(regionToZones_builds_index ⟨none⟩
      (fun zone => if zone = "zb" then Except.error "boom" else Except.ok "r1")
      {"za", "zb"} "r1").1 (by decide),
    (regionToZones_builds_index ⟨none⟩ (fun _ => Except.ok "r1")
      {"za"} "nozones").2 (by decide)⟩

/-- C8: once a call of regionToZones succeeded, a second call with the
same region on the resulting state returns the identical set and the
identical state, and in particular performs no further invocation of the
injected zone-to-region function (the call counter is unchanged). -/
theorem regionToZones_idempotent (z : ZonesConf) (region : String) (s : Finset String)
    (h : (regionToZones z region).1 = Except.ok s) :
    regionToZones (regionToZones z region).2 region =
        (Except.ok s, (regionToZones z region).2) ∧
      ((regionToZones (regionToZones z region).2 region).2).zoneToRegionCalls =
        ((regionToZones z region).2).zoneToRegionCalls := by
  rcases he : ensureRegionMap z with ⟨o, z₁⟩
  cases o with
  | some e =>
    rw [regionToZones.eq_def, he] at h
    cases h
  | none =>
    have hval := ensureRegionMap_none_valid he
    have h1 : regionToZones z region = (Except.ok (z₁.regionToZonesMap region), z₁) := by
      rw [regionToZones.eq_def, he]
    have hs : z₁.regionToZonesMap region = s := by
      rw [h1] at h
      injection h
    have h2 : regionToZones z₁ region = (Except.ok (z₁.regionToZonesMap region), z₁) := by
      rw [regionToZones.eq_def,
        show ensureRegionMap z₁ = (none, z₁) from by
          rw [ensureRegionMap, if_neg (by simp [hval])]]
    rw [h1]
    constructor
    · show regionToZones z₁ region = (Except.ok s, z₁)
      rw [h2, hs]
    · show (regionToZones z₁ region).2.zoneToRegionCalls = z₁.zoneToRegionCalls
      rw [h2]

/-- C8 witness: the idempotence theorem at a concrete resolver whose first
call succeeds. -/
theorem regionToZones_idempotent_witness :
    regionToZones
        ((regionToZones (initZonesConf ⟨none⟩ (Except.ok {"za"})
          (fun _ => Except.ok "r1")) "r1").2) "r1" =
      (Except.ok ({"za"} : Finset String),
        (regionToZones (initZonesConf ⟨none⟩ (Except.ok {"za"})
          (fun _ => Except.ok "r1")) "r1").2) ∧
      ((regionToZones
        ((regionToZones (initZonesConf ⟨none⟩ (Except.ok {"za"})
          (fun _ => Except.ok "r1")) "r1").2) "r1").2).zoneToRegionCalls =
        ((regionToZones (initZonesConf ⟨none⟩ (Except.ok {"za"})
          (fun _ => Except.ok "r1")) "r1").2).zoneToRegionCalls :=
  regionToZones_idempotent (initZonesConf ⟨none⟩ (Except.ok {"za"})
    (fun _ => Except.ok "r1")) "r1" {"za"} (by decide)

/-! ### Per-pass correspondence lemmas for the refinement of GetConfZones -/

/-- The equality-zone pass only replaces the working set, by spec step 3. -/
theorem passEqZone_eq (z : ZonesConf) :
    passEqZone z = { z with resultingZones := specStep3 z.PVC z.resultingZones } := by
  cases h : getPVCMatchLabel z.PVC LabelZoneFailureDomain with
  | ok v => simp only [passEqZone, specStep3, h]
  | error e =>
    simp only [passEqZone, specStep3, h]

/-- The In-zone pass only replaces the working set, by spec step 5. -/
theorem passInZone_eq (z : ZonesConf) :
    passInZone z = { z with resultingZones := specStep5 z.PVC z.resultingZones } := by
  cases h : getPVCMatchExpression z.PVC LabelZoneFailureDomain LabelSelectorOpIn with
  | ok sets => simp only [passInZone, specStep5, h]
  | error e => simp only [passInZone, specStep5, h]

/-- The NotIn-zone pass only replaces the working set, by spec step 7. -/
theorem passNotInZone_eq (z : ZonesConf) :
    passNotInZone z = { z with resultingZones := specStep7 z.PVC z.resultingZones } := by
  cases h : getPVCMatchExpression z.PVC LabelZoneFailureDomain LabelSelectorOpNotIn with
  | ok sets => simp only [passNotInZone, specStep7, h]
  | error e => simp only [passNotInZone, specStep7, h]

/-- The equality-region pass behaves as spec step 4 on a coherent state. -/
theorem passEqRegion_spec (z : ZonesConf) (hc : Coherent z) :
    (∀ e, specStep4 z.GetAllZones z.ZoneToRegion z.PVC z.resultingZones = Except.error e →
      (passEqRegion z).1 = some e) ∧
    (∀ ws, specStep4 z.GetAllZones z.ZoneToRegion z.PVC z.resultingZones = Except.ok ws →
      ∃ z', passEqRegion z = (none, z') ∧ z'.resultingZones = ws ∧ z'.PVC = z.PVC ∧
        z'.GetAllZones = z.GetAllZones ∧ z'.ZoneToRegion = z.ZoneToRegion ∧ Coherent z') := by
  cases hml : getPVCMatchLabel z.PVC LabelZoneRegion with
  | error e0 =>
    constructor
    · intro e he
      simp only [specStep4, hml] at he
      simp at he
    · intro ws hws
      simp only [specStep4, hml] at hws
      injection hws with hws
      subst hws
      exact ⟨z, by simp [passEqRegion, hml], rfl, rfl, rfl, rfl, hc⟩
  | ok region =>
    obtain ⟨herr, hok⟩ := ensureRegionMap_spec z hc
    cases hri : regionIndexSpec z.GetAllZones z.ZoneToRegion with
    | error e0 =>
      have h1 := herr e0 hri
      rcases he2 : ensureRegionMap z with ⟨o, z1⟩
      rw [he2] at h1
      cases o with
      | none => simp at h1
      | some e1 =>
        have he1 : e1 = e0 := by injection h1
        subst he1
        constructor
        · intro e he
          simp only [specStep4, hml, hri] at he
          injection he with he
          subst he
          simp only [passEqRegion, hml]
          rw [regionToZones.eq_def, he2]
        · intro ws hws
          simp only [specStep4, hml, hri] at hws
          simp at hws
    | ok m =>
      obtain ⟨z', hz', hmap, hval, hres, hpvc, hga, hzr, _, _, hcoh⟩ := hok m hri
      constructor
      · intro e he
        simp only [specStep4, hml, hri] at he
        simp at he
      · intro ws hws
        simp only [specStep4, hml, hri] at hws
        injection hws with hws
        refine ⟨{ z' with resultingZones := z'.resultingZones ∩ z'.regionToZonesMap region },
          ?_, ?_, (by exact hpvc), (by exact hga), (by exact hzr), (by exact hcoh)⟩
        · simp only [passEqRegion, hml]
          rw [regionToZones.eq_def, hz']
        · show z'.resultingZones ∩ z'.regionToZonesMap region = ws
          rw [hres, hmap, hws]

/-- The In-region pass behaves as spec step 6 on a coherent state. -/
theorem passInRegion_spec (z : ZonesConf) (hc : Coherent z) :
    (∀ e, specStep6 z.GetAllZones z.ZoneToRegion z.PVC z.resultingZones = Except.error e →
      (passInRegion z).1 = some e) ∧
    (∀ ws, specStep6 z.GetAllZones z.ZoneToRegion z.PVC z.resultingZones = Except.ok ws →
      ∃ z', passInRegion z = (none, z') ∧ z'.resultingZones = ws ∧ z'.PVC = z.PVC ∧
        z'.GetAllZones = z.GetAllZones ∧ z'.ZoneToRegion = z.ZoneToRegion ∧ Coherent z') := by
  cases hme : getPVCMatchExpression z.PVC LabelZoneRegion LabelSelectorOpIn with
  | error e0 =>
    constructor
    · intro e he
      simp only [specStep6, hme] at he
      simp at he
    · intro ws hws
      simp only [specStep6, hme] at hws
      injection hws with hws
      subst hws
      exact ⟨z, by simp [passInRegion, hme], rfl, rfl, rfl, rfl, hc⟩
  | ok rsets =>
    obtain ⟨herr, hok⟩ := ensureRegionMap_spec z hc
    cases hri : regionIndexSpec z.GetAllZones z.ZoneToRegion with
    | error e0 =>
      have h1 := herr e0 hri
      rcases he2 : ensureRegionMap z with ⟨o, z1⟩
      rw [he2] at h1
      cases o with
      | none => simp at h1
      | some e1 =>
        have he1 : e1 = e0 := by injection h1
        subst he1
        constructor
        · intro e he
          simp only [specStep6, hme, hri] at he
          injection he with he
          subst he
          simp only [passInRegion, hme]
          rw [he2]
        · intro ws hws
          simp only [specStep6, hme, hri] at hws
          simp at hws
    | ok m =>
      obtain ⟨z', hz', hmap, hval, hres, hpvc, hga, hzr, _, _, hcoh⟩ := hok m hri
      constructor
      · intro e he
        simp only [specStep6, hme, hri] at he
        simp at he
      · intro ws hws
        simp only [specStep6, hme, hri] at hws
        injection hws with hws
        refine ⟨{ z' with resultingZones := rsets.foldl (fun acc rs => acc ∩ sumZonesForRegions z'.regionToZonesMap rs) z'.resultingZones }, ?_, ?_, (by exact hpvc), (by exact hga), (by exact hzr), (by exact hcoh)⟩
        · simp only [passInRegion, hme]
          rw [hz']
        · show rsets.foldl (fun acc rs => acc ∩ sumZonesForRegions z'.regionToZonesMap rs)
              z'.resultingZones = ws
          rw [hres, hmap, hws]

/-- The NotIn-region pass behaves as spec step 8 on a coherent state. -/
theorem passNotInRegion_spec (z : ZonesConf) (hc : Coherent z) :
    (∀ e, specStep8 z.GetAllZones z.ZoneToRegion z.PVC z.resultingZones = Except.error e →
      (passNotInRegion z).1 = some e) ∧
    (∀ ws, specStep8 z.GetAllZones z.ZoneToRegion z.PVC z.resultingZones = Except.ok ws →
      ∃ z', passNotInRegion z = (none, z') ∧ z'.resultingZones = ws ∧ z'.PVC = z.PVC ∧
        z'.GetAllZones = z.GetAllZones ∧ z'.ZoneToRegion = z.ZoneToRegion ∧ Coherent z') := by
  cases hme : getPVCMatchExpression z.PVC LabelZoneRegion LabelSelectorOpNotIn with
  | error e0 =>
    constructor
    · intro e he
      simp only [specStep8, hme] at he
      simp at he
    · intro ws hws
      simp only [specStep8, hme] at hws
      injection hws with hws
      subst hws
      exact ⟨z, by simp [passNotInRegion, hme], rfl, rfl, rfl, rfl, hc⟩
  | ok rsets =>
    obtain ⟨herr, hok⟩ := ensureRegionMap_spec z hc
    cases hri : regionIndexSpec z.GetAllZones z.ZoneToRegion with
    | error e0 =>
      have h1 := herr e0 hri
      rcases he2 : ensureRegionMap z with ⟨o, z1⟩
      rw [he2] at h1
      cases o with
      | none => simp at h1
      | some e1 =>
        have he1 : e1 = e0 := by injection h1
        subst he1
        constructor
        · intro e he
          simp only [specStep8, hme, hri] at he
          injection he with he
          subst he
          simp only [passNotInRegion, hme]
          rw [he2]
        · intro ws hws
          simp only [specStep8, hme, hri] at hws
          simp at hws
    | ok m =>
      obtain ⟨z', hz', hmap, hval, hres, hpvc, hga, hzr, _, _, hcoh⟩ := hok m hri
      constructor
      · intro e he
        simp only [specStep8, hme, hri] at he
        simp at he
      · intro ws hws
        simp only [specStep8, hme, hri] at hws
        injection hws with hws
        refine ⟨{ z' with resultingZones := rsets.foldl (fun acc rs => acc \ sumZonesForRegions z'.regionToZonesMap rs) z'.resultingZones }, ?_, ?_, (by exact hpvc), (by exact hga), (by exact hzr), (by exact hcoh)⟩
        · simp only [passNotInRegion, hme]
          rw [hz']
        · show rsets.foldl (fun acc rs => acc \ sumZonesForRegions z'.regionToZonesMap rs)
              z'.resultingZones = ws
          rw [hres, hmap, hws]

/-- Stage three of the pass chain computes spec steps 7 and 8 followed by
the final emptiness check. -/
theorem confZonesPasses3_spec (z : ZonesConf) (hc : Coherent z) :
    (confZonesPasses3 z).1 =
      (match specStep8 z.GetAllZones z.ZoneToRegion z.PVC
          (specStep7 z.PVC z.resultingZones) with
       | Except.error e => Except.error e
       | Except.ok ws8 =>
         if ws8.card < 1 then Except.error terminalEmptyMsg
         else Except.ok ws8) := by
  simp only [confZonesPasses3]
  rw [passNotInZone_eq z]
  obtain ⟨h8e, h8o⟩ := passNotInRegion_spec
    { z with resultingZones := specStep7 z.PVC z.resultingZones } (by exact hc)
  cases h8 : specStep8 z.GetAllZones z.ZoneToRegion z.PVC
      (specStep7 z.PVC z.resultingZones) with
  | error e =>
    have h1 := h8e e (by exact h8)
    rcases hp : passNotInRegion
        { z with resultingZones := specStep7 z.PVC z.resultingZones } with ⟨o, z7⟩
    rw [hp] at h1
    cases o with
    | none => simp at h1
    | some e1 =>
      have he1 : e1 = e := by injection h1
      subst he1
      rfl
  | ok ws8 =>
    obtain ⟨z7, hz7, hres7, _, _, _, _⟩ := h8o ws8 (by exact h8)
    rw [hz7]
    show (if z7.resultingZones.card < 1 then
            ((Except.error terminalEmptyMsg : Except String (Finset String)), z7)
          else (Except.ok z7.resultingZones, z7)).1 =
      (if ws8.card < 1 then Except.error terminalEmptyMsg else Except.ok ws8)
    rw [hres7]
    by_cases hcard : ws8.card < 1
    · rw [if_pos hcard, if_pos hcard]
    · rw [if_neg hcard, if_neg hcard]

/-- Stage two of the pass chain computes spec steps 5 and 6 and then stage
three. -/
theorem confZonesPasses2_spec (z : ZonesConf) (hc : Coherent z) :
    (confZonesPasses2 z).1 =
      (match specStep6 z.GetAllZones z.ZoneToRegion z.PVC
          (specStep5 z.PVC z.resultingZones) with
       | Except.error e => Except.error e
       | Except.ok ws6 =>
         match specStep8 z.GetAllZones z.ZoneToRegion z.PVC (specStep7 z.PVC ws6) with
         | Except.error e => Except.error e
         | Except.ok ws8 =>
           if ws8.card < 1 then Except.error terminalEmptyMsg
           else Except.ok ws8) := by
  simp only [confZonesPasses2]
  rw [passInZone_eq z]
  obtain ⟨h6e, h6o⟩ := passInRegion_spec
    { z with resultingZones := specStep5 z.PVC z.resultingZones } (by exact hc)
  cases h6 : specStep6 z.GetAllZones z.ZoneToRegion z.PVC
      (specStep5 z.PVC z.resultingZones) with
  | error e =>
    have h1 := h6e e (by exact h6)
    rcases hp : passInRegion
        { z with resultingZones := specStep5 z.PVC z.resultingZones } with ⟨o, z5⟩
    rw [hp] at h1
    cases o with
    | none => simp at h1
    | some e1 =>
      have he1 : e1 = e := by injection h1
      subst he1
      rfl
  | ok ws6 =>
    obtain ⟨z5, hz5, hres5, hpvc5, hga5, hzr5, hcoh5⟩ := h6o ws6 (by exact h6)
    rw [hz5]
    show (confZonesPasses3 z5).1 =
      (match specStep8 z.GetAllZones z.ZoneToRegion z.PVC (specStep7 z.PVC ws6) with
       | Except.error e => Except.error e
       | Except.ok ws8 =>
         if ws8.card < 1 then Except.error terminalEmptyMsg
         else Except.ok ws8)
    rw [confZonesPasses3_spec z5 hcoh5, hres5, hpvc5, hga5, hzr5]

/-- The full pass chain computes spec steps 3 to 8 and the final emptiness
check. -/
theorem confZonesPasses_spec (z : ZonesConf) (hc : Coherent z) :
    (confZonesPasses z).1 =
      (match specStep4 z.GetAllZones z.ZoneToRegion z.PVC
          (specStep3 z.PVC z.resultingZones) with
       | Except.error e => Except.error e
       | Except.ok ws4 =>
         match specStep6 z.GetAllZones z.ZoneToRegion z.PVC (specStep5 z.PVC ws4) with
         | Except.error e => Except.error e
         | Except.ok ws6 =>
           match specStep8 z.GetAllZones z.ZoneToRegion z.PVC (specStep7 z.PVC ws6) with
           | Except.error e => Except.error e
           | Except.ok ws8 =>
             if ws8.card < 1 then Except.error terminalEmptyMsg
             else Except.ok ws8) := by
  simp only [confZonesPasses]
  rw [passEqZone_eq z]
  obtain ⟨h4e, h4o⟩ := passEqRegion_spec
    { z with resultingZones := specStep3 z.PVC z.resultingZones } (by exact hc)
  cases h4 : specStep4 z.GetAllZones z.ZoneToRegion z.PVC
      (specStep3 z.PVC z.resultingZones) with
  | error e =>
    have h1 := h4e e (by exact h4)
    rcases hp : passEqRegion
        { z with resultingZones := specStep3 z.PVC z.resultingZones } with ⟨o, z3⟩
    rw [hp] at h1
    cases o with
    | none => simp at h1
    | some e1 =>
      have he1 : e1 = e := by injection h1
      subst he1
      rfl
  | ok ws4 =>
    obtain ⟨z3, hz3, hres3, hpvc3, hga3, hzr3, hcoh3⟩ := h4o ws4 (by exact h4)
    rw [hz3]
    show (confZonesPasses2 z3).1 =
      (match specStep6 z.GetAllZones z.ZoneToRegion z.PVC (specStep5 z.PVC ws4) with
       | Except.error e => Except.error e
       | Except.ok ws6 =>
         match specStep8 z.GetAllZones z.ZoneToRegion z.PVC (specStep7 z.PVC ws6) with
         | Except.error e => Except.error e
         | Except.ok ws8 =>
           if ws8.card < 1 then Except.error terminalEmptyMsg
           else Except.ok ws8)
    rw [confZonesPasses2_spec z3 hcoh3, hres3, hpvc3, hga3, hzr3]

/-- GetConfZones on a configured-override state (either StorageClass flag
set): the working set starts from resultingZones as installed by
SetZone/SetZones. -/
theorem getConfZones_with_override (z : ZonesConf) (hc : Coherent z)
    (hskip : (!z.isSCZoneConfigured && !z.isSCZonesConfigured) = false) :
    (GetConfZones z).1 =
      resolveSpec z.GetAllZones z.ZoneToRegion z.PVC (some z.resultingZones) := by
  have hstep : GetConfZones z =
      (match validatePVCSelector z.PVC with
       | Except.error e => (Except.error e, z)
       | Except.ok true => (Except.ok z.resultingZones, z)
       | Except.ok false => confZonesPasses z) := by
    rw [GetConfZones.eq_def, hskip]
    rfl
  have hres : resolveSpec z.GetAllZones z.ZoneToRegion z.PVC (some z.resultingZones) =
      (match validatePVCSelector z.PVC with
       | Except.error e => Except.error e
       | Except.ok true => Except.ok z.resultingZones
       | Except.ok false =>
         match specStep4 z.GetAllZones z.ZoneToRegion z.PVC
             (specStep3 z.PVC z.resultingZones) with
         | Except.error e => Except.error e
         | Except.ok ws4 =>
           match specStep6 z.GetAllZones z.ZoneToRegion z.PVC (specStep5 z.PVC ws4) with
           | Except.error e => Except.error e
           | Except.ok ws6 =>
             match specStep8 z.GetAllZones z.ZoneToRegion z.PVC (specStep7 z.PVC ws6) with
             | Except.error e => Except.error e
             | Except.ok ws8 =>
               if ws8.card < 1 then Except.error terminalEmptyMsg
               else Except.ok ws8) := rfl
  rw [hstep, hres]
  cases hvv : validatePVCSelector z.PVC with
  | error e => rfl
  | ok b =>
    cases b with
    | true => rfl
    | false => exact confZonesPasses_spec z hc

/-- GetConfZones on a fresh no-override state: the working set starts from
the fetched all-zones set. -/
theorem getConfZones_no_override (z : ZonesConf)
    (hskip : (!z.isSCZoneConfigured && !z.isSCZonesConfigured) = true)
    (hg : z.gotAllAvailableZones = false)
    (hv : z.isRegionToZonesMapValid = false) :
    (GetConfZones z).1 = resolveSpec z.GetAllZones z.ZoneToRegion z.PVC none := by
  have hresunf : resolveSpec z.GetAllZones z.ZoneToRegion z.PVC none =
      (match z.GetAllZones with
       | Except.error e => Except.error e
       | Except.ok start =>
         match validatePVCSelector z.PVC with
         | Except.error e => Except.error e
         | Except.ok true => Except.ok start
         | Except.ok false =>
           match specStep4 z.GetAllZones z.ZoneToRegion z.PVC (specStep3 z.PVC start) with
           | Except.error e => Except.error e
           | Except.ok ws4 =>
             match specStep6 z.GetAllZones z.ZoneToRegion z.PVC (specStep5 z.PVC ws4) with
             | Except.error e => Except.error e
             | Except.ok ws6 =>
               match specStep8 z.GetAllZones z.ZoneToRegion z.PVC (specStep7 z.PVC ws6) with
               | Except.error e => Except.error e
               | Except.ok ws8 =>
                 if ws8.card < 1 then Except.error terminalEmptyMsg
                 else Except.ok ws8) := rfl
  rw [hresunf]
  cases hga : z.GetAllZones with
  | error e =>
    rw [GetConfZones.eq_def, hskip, (getAllAvailableZones_cases z hg).1 e hga]
    rfl
  | ok A =>
    have hstep : GetConfZones z =
        (match validatePVCSelector z.PVC with
         | Except.error e =>
           (Except.error e, { z with GetAllZones := Except.ok A, allAvailableZones := A, gotAllAvailableZones := true, resultingZones := A })
         | Except.ok true =>
           (Except.ok A, { z with GetAllZones := Except.ok A, allAvailableZones := A, gotAllAvailableZones := true, resultingZones := A })
         | Except.ok false =>
           confZonesPasses { z with GetAllZones := Except.ok A, allAvailableZones := A, gotAllAvailableZones := true, resultingZones := A }) := by
      rw [GetConfZones.eq_def, hskip, (getAllAvailableZones_cases z hg).2 A hga, hga]
      rfl
    have hcoh : Coherent { z with GetAllZones := Except.ok A, allAvailableZones := A, gotAllAvailableZones := true, resultingZones := A } := by
      refine ⟨fun _ => rfl, fun h => ?_⟩
      have h2 : z.isRegionToZonesMapValid = true := h
      rw [hv] at h2
      cases h2
    rw [hstep]
    cases hvv : validatePVCSelector z.PVC with
    | error e => rfl
    | ok b =>
      cases b with
      | true => rfl
      | false =>
        exact confZonesPasses_spec
          { z with GetAllZones := Except.ok A, allAvailableZones := A, gotAllAvailableZones := true, resultingZones := A } hcoh

/-- C1: GetConfZones applies the constraint passes in exactly the claimed
order.  Its result coincides, for a fresh resolver with no override, with
a successful SetZone override, and with a successful SetZones override,
with the specification pipeline resolveSpec, which starts from the
override zones (or the all-zones set), returns the working set unchanged
on an empty validated selector, and otherwise applies the equality-zone,
equality-region, In-zone, In-region, NotIn-zone and NotIn-region passes in
this exact order before the terminal emptiness check. -/
theorem getConfZones_pass_order (pvc : PersistentVolumeClaim)
    (gA : Except String (Finset String)) (zR : String → Except String String)
    (zone csv : String) (s : Finset String) :
    ((GetConfZones (initZonesConf pvc gA zR)).1 = resolveSpec gA zR pvc none) ∧
    ((GetConfZones (SetZone (initZonesConf pvc gA zR) zone).2).1 =
      resolveSpec gA zR pvc (some {zone})) ∧
    (zonesToSet csv = Except.ok s →
      (GetConfZones (SetZones (initZonesConf pvc gA zR) csv).2).1 =
        resolveSpec gA zR pvc (some s)) := by
  refine ⟨?_, ?_, fun hp => ?_⟩
  · exact getConfZones_no_override (initZonesConf pvc gA zR) rfl rfl rfl
  · have h2 : (SetZone (initZonesConf pvc gA zR) zone).2 =
        { initZonesConf pvc gA zR with
            resultingZones := {zone}, isSCZoneConfigured := true } := rfl
    rw [h2]
    exact getConfZones_with_override _
      ⟨fun h => Bool.noConfusion h, fun h => Bool.noConfusion h⟩ rfl
  · have h2 : (SetZones (initZonesConf pvc gA zR) csv).2 =
        { initZonesConf pvc gA zR with
            resultingZones := s, isSCZonesConfigured := true } := by
      simp [SetZones, hp, initZonesConf]
    rw [h2]
    exact getConfZones_with_override _
      ⟨fun h => Bool.noConfusion h, fun h => Bool.noConfusion h⟩ rfl

/-- C1 witness: all three override scenarios of the pass-order theorem at
concrete inputs, with the SetZones parse hypothesis discharged. -/
theorem getConfZones_pass_order_witness :
    ((GetConfZones (initZonesConf ⟨none⟩ (Except.ok {"a"}) (fun _ => Except.ok "r"))).1 =
      resolveSpec (Except.ok {"a"}) (fun _ => Except.ok "r") ⟨none⟩ none) ∧
    ((GetConfZones (SetZone (initZonesConf ⟨none⟩ (Except.ok {"a"})
        (fun _ => Except.ok "r")) "z1").2).1 =
      resolveSpec (Except.ok {"a"}) (fun _ => Except.ok "r") ⟨none⟩
        (some ({"z1"} : Finset String))) ∧
    ((GetConfZones (SetZones (initZonesConf ⟨none⟩ (Except.ok {"a"})
        (fun _ => Except.ok "r")) "x,y").2).1 =
      resolveSpec (Except.ok {"a"}) (fun _ => Except.ok "r") ⟨none⟩
        (some ({"x", "y"} : Finset String))) :=
  ⟨(getConfZones_pass_order ⟨none⟩ (Except.ok {"a"}) (fun _ => Except.ok "r")
      "z1" "x,y" {"x", "y"}).1,
    (getConfZones_pass_order ⟨none⟩ (Except.ok {"a"}) (fun _ => Except.ok "r")
      "z1" "x,y" {"x", "y"}).2.1,
    (getConfZones_pass_order ⟨none⟩ (Except.ok {"a"}) (fun _ => Except.ok "r")
      "z1" "x,y" {"x", "y"}).2.2 (by decide)⟩

end KubeVolume
